import Mathlib

/-!
Verification development for the PDF-reader question-answering web
application (`app.py`).  The file embeds the application's pure core —
reference extraction via the regular expression
`(\[\d+\]\s.+?)(?=\n\n|\Z)` with `re.findall` under
`re.MULTILINE | re.DOTALL`, per-model answer generation wrapped in a
`try/except`, and the `/process` and `/health` request handlers — as
executable Lean definitions, and proves the behavioural properties the
specification states about them.

External collaborators (the HuggingFace tokenizers and models, Flask
request plumbing) are represented by explicit records of functions whose
fallible calls return `Except String`; a Python exception propagating out
of a handler is an `Except.error` at the handler's boundary.
-/

/-! ## Reference extraction (`extract_references`, app.py lines 40–44)

The pattern `(\[\d+\]\s.+?)(?=\n\n|\Z)` is compiled with
`re.MULTILINE | re.DOTALL`.  `MULTILINE` only affects `^`/`$`, which do
not occur, so it is a no-op here.  `DOTALL` makes `.` match `\n` as
well, so the lazy body `.+?` consumes the shortest nonempty run of
arbitrary characters (newlines included) after which the lookahead
`\n\n` or end-of-input succeeds.  `re.findall` scans left to right and
returns the nonoverlapping matches in order of appearance, resuming
each scan at the end of the previous match. -/

/-- Python's `\s` on the ASCII range: space, tab, newline, carriage
return, vertical tab, form feed. -/
def isPySpace (c : Char) : Bool :=
  c = ' ' || c = '\t' || c = '\n' || c = '\r' || c = Char.ofNat 11 || c = Char.ofNat 12

/-- The lookahead `(?=\n\n|\Z)`: succeeds at the end of the input or
when the next two characters are both newlines. -/
def boundaryB : List Char → Bool
  | [] => true
  | [_] => false
  | a :: b :: _ => a = '\n' && b = '\n'

/-- The lazy body `.+?` followed by the lookahead: consume the shortest
nonempty run of characters (any character, `re.DOTALL`) after which
`boundaryB` holds, returning the consumed run and the rest. -/
def lazyContent : List Char → Option (List Char × List Char)
  | [] => none
  | c :: rest =>
    if boundaryB rest then some ([c], rest)
    else
      match lazyContent rest with
      | some (m, rem) => some (c :: m, rem)
      | none => none

/-- One attempted match of `\[\d+\]\s.+?(?=\n\n|\Z)` anchored at the
head of `s`: a literal `[`, a maximal nonempty digit run (the greedy
`\d+` cannot give digits back because `]` is not a digit), a literal
`]`, a single `\s` character, then the lazy body.  Returns the matched
characters (capture group 1) and the remaining input. -/
def matchAt (s : List Char) : Option (List Char × List Char) :=
  match s with
  | [] => none
  | c :: rest =>
    if c = '[' then
      if rest.takeWhile Char.isDigit = [] then none
      else
        match rest.dropWhile Char.isDigit with
        | [] => none
        | b :: rest2 =>
          if b = ']' then
            match rest2 with
            | [] => none
            | w :: rest3 =>
              if isPySpace w then
                match lazyContent rest3 with
                | some (content, rem) =>
                  some ('[' :: rest.takeWhile Char.isDigit ++ ']' :: w :: content, rem)
                | none => none
              else none
          else none
    else none

/-- `re.findall`'s scan, with explicit fuel (each step consumes at
least one character, so `s.length` fuel suffices): try a match at the
current position; on success emit it and resume at the match end, on
failure advance one character. -/
def findallF : Nat → List Char → List (List Char)
  | 0, _ => []
  | fuel + 1, s =>
    match matchAt s with
    | some (m, rem) => m :: findallF fuel rem
    | none =>
      match s with
      | [] => []
      | _ :: rest => findallF fuel rest

/-- `re.findall(references_pattern, pdf_text, re.MULTILINE | re.DOTALL)`:
all nonoverlapping matches, left to right. -/
def findall (s : List Char) : List (List Char) :=
  findallF s.length s

/-- `extract_references` (app.py lines 40–44): the matches if there are
any, otherwise the single-element sentinel list. -/
def extract_references (pdf_text : String) : List String :=
  let ms := (findall pdf_text.data).map String.mk
  if ms = [] then ["No references found."] else ms

/-! ### Blank-line-free texts and well-formed reference entries -/

/-- `noBlank l` holds when `l` contains no two adjacent newline
characters, i.e. no blank-line separator `\n\n`. -/
def noBlank : List Char → Bool
  | [] => true
  | [_] => true
  | a :: b :: l => !(a = '\n' && b = '\n') && noBlank (b :: l)

/-- The characters matched by one reference entry:
`[` + digit label + `]` + one whitespace character + body. -/
def entry (ds : List Char) (w : Char) (c : List Char) : List Char :=
  '[' :: ds ++ ']' :: w :: c

/-- A well-formed reference entry in the sense of the specification:
a nonempty all-digit bracket label, a whitespace character, and a
nonempty body that contains no blank line and does not end in a
newline (so a following blank-line separator is not consumed early). -/
def isEntryB (x : List Char × Char × List Char) : Bool :=
  !(x.1 == []) && x.1.all Char.isDigit && isPySpace x.2.1 &&
    !(x.2.2 == []) && noBlank (x.2.2 ++ ['\n'])

/-- Text layout of §8's "N well-separated reference entries": the
entries in order, adjacent ones separated by exactly one blank line. -/
def renderDoc : List (List Char × Char × List Char) → List Char
  | [] => []
  | [x] => entry x.1 x.2.1 x.2.2
  | x :: y :: rest => entry x.1 x.2.1 x.2.2 ++ '\n' :: '\n' :: renderDoc (y :: rest)

/-! ## Answer generation (`generate_answer`, app.py lines 46–68)

The HuggingFace tokenizers and models are external collaborators loaded
once at startup (app.py lines 22–38).  Each is represented by a record
of functions returning `Except String`: an `Except.error e` is a Python
exception carrying message `e`.  The registries hold exactly the three
statically configured keys; looking up any other key raises `KeyError`
(whose f-string rendering is the `repr` of the key). -/

/-- Decoding hyperparameters passed to `model.generate`
(app.py lines 55–62): `max_length`, `min_length`, `num_beams=5`,
`length_penalty=1.5`, `early_stopping=True`. -/
structure GenParams where
  max_length : Nat
  min_length : Nat
  num_beams : Nat
  length_penalty : Rat
  early_stopping : Bool

/-- Modelled from the spec: an external HuggingFace tokenizer.
`toTokens` is its raw tokenization and `decode` its detokenization
(second argument is `skip_special_tokens`); either may raise. -/
structure Tokenizer where
  toTokens : String → Except String (List Nat)
  decode : List Nat → Bool → Except String String

/-- Modelled from the spec: `tokenizer.encode(text, return_tensors="pt",
truncation=True, max_length=N)` tokenizes and, when truncation is on,
keeps only the first `N` tokens — truncation to the fixed context
length drops trailing content only (spec §4.2). -/
def Tokenizer.encode (tk : Tokenizer) (text : String) (truncation : Bool)
    (max_length : Nat) : Except String (List Nat) :=
  match tk.toTokens text with
  | .ok ts => .ok (if truncation then ts.take max_length else ts)
  | .error e => .error e

/-- Modelled from the spec: an external pretrained model; `generate`
returns a batch of output token sequences (or raises). -/
structure GenModel where
  generate : List Nat → GenParams → Except String (List (List Nat))

/-- The process-wide registries of app.py lines 28–38: one tokenizer
and one model per configured key. -/
structure Env where
  bart_tokenizer : Tokenizer
  gpt2_tokenizer : Tokenizer
  gpt_neo_tokenizer : Tokenizer
  bart_model : GenModel
  gpt2_model : GenModel
  gpt_neo_model : GenModel

/-- `MODEL_NAMES` (app.py lines 22–26). -/
def MODEL_NAMES : List (String × String) :=
  [("bart", "facebook/bart-large-cnn"),
   ("gpt2", "gpt2"),
   ("gpt_neo", "EleutherAI/gpt-neo-2.7B")]

/-- Python renders a `KeyError` in an f-string as the `repr` of the
missing key: the key surrounded by apostrophes (character 39). -/
def keyErrMsg (name : String) : String :=
  String.singleton (Char.ofNat 39) ++ name ++ String.singleton (Char.ofNat 39)

/-- `models[model_name]` (app.py line 49): the dict holds exactly the
three configured keys; any other key raises `KeyError`. -/
def models_get (env : Env) (name : String) : Except String GenModel :=
  if name = "bart" then .ok env.bart_model
  else if name = "gpt2" then .ok env.gpt2_model
  else if name = "gpt_neo" then .ok env.gpt_neo_model
  else .error (keyErrMsg name)

/-- `tokenizers[model_name]` (app.py line 50). -/
def tokenizers_get (env : Env) (name : String) : Except String Tokenizer :=
  if name = "bart" then .ok env.bart_tokenizer
  else if name = "gpt2" then .ok env.gpt2_tokenizer
  else if name = "gpt_neo" then .ok env.gpt_neo_tokenizer
  else .error (keyErrMsg name)

/-- The prompt built at app.py line 52:
`f"Research Question: {question}\n\nContext: {pdf_text}"`. -/
def mkPrompt (question pdf_text : String) : String :=
  "Research Question: " ++ question ++ "\n\nContext: " ++ pdf_text

/-- `outputs[0]` (app.py line 64): first output sequence, raising an
index error on an empty batch. -/
def getItem0 : List (List Nat) → Except String (List Nat)
  | [] => .error "index out of range"
  | x :: _ => .ok x

/-- The body of `generate_answer`'s `try:` block (app.py lines 48–65):
registry lookups, prompt construction, tokenization with truncation to
the fixed context length 1024, beam-search generation, and decoding of
the first output with special tokens stripped.  Any step may raise. -/
def generateBody (env : Env) (model_name pdf_text question : String)
    (max_length min_length : Nat) : Except String String :=
  Except.bind (models_get env model_name) fun model =>
  Except.bind (tokenizers_get env model_name) fun tokenizer =>
  Except.bind (tokenizer.encode (mkPrompt question pdf_text) true 1024) fun inputs =>
  Except.bind (model.generate inputs ⟨max_length, min_length, 5, (1.5 : Rat), true⟩)
    fun outputs =>
  Except.bind (getItem0 outputs) fun first =>
  tokenizer.decode first true

/-- `generate_answer` (app.py lines 46–68): runs the body and converts
any raised exception into the in-band string
`"Error generating answer: <message>"`; as a total function into
`String` it never propagates a failure to its caller. -/
def generate_answer (env : Env) (model_name pdf_text question : String)
    (max_length : Nat := 1500) (min_length : Nat := 700) : String :=
  match generateBody env model_name pdf_text question max_length min_length with
  | .ok answer => answer
  | .error e => "Error generating answer: " ++ e

/-! ## Request handling (`process` and `health_check`, app.py lines 74–106) -/

/-- `ALLOWED_EXTENSIONS` (app.py line 15); the Python set is modelled
as a list, only membership is used. -/
def ALLOWED_EXTENSIONS : List String := ["pdf", "txt"]

/-- `filename.rsplit('.', 1)[1]`: the part after the last dot. -/
def extAfterLastDot (filename : String) : String :=
  String.mk ((filename.data.reverse.takeWhile fun c => c ≠ '.').reverse)

/-- Python's `str.lower()` (characterwise lowercasing). -/
def lowerStr (s : String) : String :=
  String.mk (s.data.map Char.toLower)

/-- `allowed_file` (app.py lines 18–19). -/
def allowed_file (filename : String) : Bool :=
  filename.data.contains '.' &&
    ALLOWED_EXTENSIONS.contains (lowerStr (extAfterLastDot filename))

/-- A `/process` POST request: `request.form.get('question')`,
`request.form.get('pdf_text')` (absent fields are `None`), and the
uploaded file part represented by its filename when present
(`request.files.get('file')`). -/
structure Req where
  question : Option String
  pdf_text : Option String
  file : Option String

/-- Python truthiness of an `Optional[str]`: `None` and the empty
string are falsy. -/
def truthyS : Option String → Bool
  | none => false
  | some s => !(s == "")

/-- Python truthiness of the uploaded file slot: absent is falsy, and a
werkzeug `FileStorage` is truthy exactly when its filename is nonempty
(`FileStorage.__bool__` returns `bool(self.filename)`). -/
def fileTruthy : Option String → Bool
  | none => false
  | some fn => !(fn == "")

/-- The validation test at app.py line 80:
`if not question or not (pdf_text or uploaded_file):`. -/
def validationFails (req : Req) : Bool :=
  !truthyS req.question || !(truthyS req.pdf_text || fileTruthy req.file)

/-- The document text after the file branch (app.py lines 83–87): a
truthy uploaded file with an allowed extension is saved and replaced by
the placeholder string; otherwise `pdf_text` is left as it was.  The
filesystem write of the saved upload has no effect on the response and
is not modelled. -/
def resolveText (req : Req) : Option String :=
  match req.file with
  | some fn =>
    if !(fn == "") && allowed_file fn then some "Simulated text from PDF extraction."
    else req.pdf_text
  | none => req.pdf_text

/-- A response leaving the handler: a `jsonify(payload), status` pair,
or the rendered `result.html` carrying the question, the three named
answers and the reference list (the only values the core passes to the
presentation layer). -/
inductive Response
  | json (payload : List (String × String)) (status : Nat)
  | page (question bart_answer gpt2_answer gpt_neo_answer : String)
      (references : List String)
  deriving DecidableEq

/-- `process` (app.py lines 74–102), as a function of the loaded
registries and the request.  An uncaught Python exception inside the
handler is an `Except.error` at the handler boundary: with a valid
request but no document text (`pdf_text is None` after the file
branch), `re.findall(pattern, None)` at line 90 raises `TypeError`. -/
def process (env : Env) (req : Req) : Except String Response :=
  if validationFails req then
    .ok (.json [("error", "Both question and PDF text are required")] 400)
  else
    match resolveText req with
    | none => .error "TypeError: expected string or bytes-like object"
    | some t =>
      let question := req.question.getD ""
      let references := extract_references t
      let bart_answer := generate_answer env "bart" t question
      let gpt2_answer := generate_answer env "gpt2" t question
      let gpt_neo_answer := generate_answer env "gpt_neo" t question
      .ok (.page question bart_answer gpt2_answer gpt_neo_answer references)

/-- `health_check` (app.py lines 104–106).  It takes the registries as
an argument only so that independence from model state is expressible;
the body ignores them. -/
def health_check (_env : Env) : Response :=
  .json [("status", "running")] 200

/-! ## Concrete collaborators used by the witnesses -/

/-- A tokenizer whose calls all raise, for exercising the error path. -/
def failTokenizer : Tokenizer :=
  ⟨fun _ => .error "boom", fun _ _ => .error "boom"⟩

/-- A tokenizer that maps each character to its code point and decodes
to a fixed string. -/
def okTokenizer : Tokenizer :=
  ⟨fun s => .ok (s.data.map fun c => c.toNat), fun _ _ => .ok "ans"⟩

/-- A model whose generation raises, for exercising the error path. -/
def failModel : GenModel :=
  ⟨fun _ _ => .error "CUDA out of memory"⟩

/-- Registries in which every tokenizer call raises. -/
def envFail : Env :=
  ⟨failTokenizer, failTokenizer, failTokenizer, failModel, failModel, failModel⟩

/-- Registries with working tokenizers and failing models. -/
def envTok : Env :=
  ⟨okTokenizer, okTokenizer, okTokenizer, failModel, failModel, failModel⟩

def refDocW : List (List Char × Char × List Char) :=
  [(['1'], ' ', "Smith 2020".data), (['2'], ' ', "Jones 2021".data)]

/-- The raw tokenization of the witness prompt under `okTokenizer`. -/
def tsW : List Nat := (mkPrompt "q" "doc").data.map fun c => c.toNat

/-! ### Decomposition lemmas for the scanner -/

theorem lazyContent_decomp : ∀ {l p rem : List Char},
    lazyContent l = some (p, rem) → l = p ++ rem ∧ p ≠ [] ∧ boundaryB rem = true := by
  intro l
  induction l with
  | nil => intro p rem h; simp [lazyContent] at h
  | cons c rest ih =>
    intro p rem h
    by_cases hb : boundaryB rest = true
    · simp [lazyContent, hb] at h
      obtain ⟨hp, hrem⟩ := h
      subst hp; subst hrem
      exact ⟨rfl, by simp, hb⟩
    · simp [lazyContent, hb] at h
      cases hrec : lazyContent rest with
      | none => rw [hrec] at h; simp at h
      | some pr =>
        obtain ⟨m, rem'⟩ := pr
        rw [hrec] at h
        simp at h
        obtain ⟨hp, hrem⟩ := h
        obtain ⟨hl, hm, hbd⟩ := ih hrec
        subst hp; subst hrem
        exact ⟨by simp [hl], by simp, hbd⟩

theorem matchAt_decomp : ∀ {s m rem : List Char},
    matchAt s = some (m, rem) → s = m ++ rem ∧ m ≠ [] ∧ boundaryB rem = true := by
  intro s m rem h
  cases s with
  | nil => simp [matchAt] at h
  | cons c rest =>
    by_cases hc : c = '['
    · subst hc
      by_cases hds : rest.takeWhile Char.isDigit = []
      · simp [matchAt, hds] at h
      · cases hdrop : rest.dropWhile Char.isDigit with
        | nil => simp [matchAt, hds, hdrop] at h
        | cons b rest2 =>
          by_cases hb : b = ']'
          · subst hb
            cases rest2 with
            | nil => simp [matchAt, hds, hdrop] at h
            | cons w rest3 =>
              by_cases hw : isPySpace w = true
              · cases hlc : lazyContent rest3 with
                | none => simp [matchAt, hds, hdrop, hw, hlc] at h
                | some pr =>
                  obtain ⟨content, rem'⟩ := pr
                  simp [matchAt, hds, hdrop, hw, hlc] at h
                  obtain ⟨hm, hrem⟩ := h
                  obtain ⟨hl3, hcne, hbd⟩ := lazyContent_decomp hlc
                  subst hm; subst hrem
                  refine ⟨?_, by simp, hbd⟩
                  have hsplit : rest = rest.takeWhile Char.isDigit ++ rest.dropWhile Char.isDigit :=
                    (List.takeWhile_append_dropWhile Char.isDigit rest).symm
                  conv_lhs => rw [hsplit, hdrop, hl3]
                  simp
              · simp [matchAt, hds, hdrop, hw] at h
          · simp [matchAt, hds, hdrop, hb] at h
    · simp [matchAt, hc] at h

theorem matchAt_nil : matchAt [] = none := rfl

theorem matchAt_cons_ne {c : Char} {l : List Char} (h : c ≠ '[') :
    matchAt (c :: l) = none := by
  simp [matchAt, h]

/-! ### Fuel-independence and unfolding equations for `findall` -/

theorem findallF_nil : ∀ f, findallF f [] = []
  | 0 => rfl
  | _ + 1 => rfl

theorem findallF_congr : ∀ (f g : Nat) (s : List Char),
    s.length ≤ f → s.length ≤ g → findallF f s = findallF g s := by
  intro f
  induction f with
  | zero =>
    intro g s hf _
    have : s = [] := List.eq_nil_of_length_eq_zero (Nat.le_zero.mp hf)
    subst this
    rw [findallF_nil, findallF_nil]
  | succ f ih =>
    intro g s hf hg
    cases g with
    | zero =>
      have : s = [] := List.eq_nil_of_length_eq_zero (Nat.le_zero.mp hg)
      subst this
      rw [findallF_nil, findallF_nil]
    | succ g =>
      cases hm : matchAt s with
      | some pr =>
        obtain ⟨m, rem⟩ := pr
        obtain ⟨hs, hmne, -⟩ := matchAt_decomp hm
        have hrem : rem.length + 1 ≤ s.length := by
          subst hs
          cases m with
          | nil => exact absurd rfl hmne
          | cons a m' => simp
        simp only [findallF, hm]
        have h1 : rem.length ≤ f := by omega
        have h2 : rem.length ≤ g := by omega
        rw [ih g rem h1 h2]
      | none =>
        cases s with
        | nil => rw [findallF_nil, findallF_nil]
        | cons c rest =>
          simp only [findallF, hm]
          have h1 : rest.length ≤ f := by simp at hf; omega
          have h2 : rest.length ≤ g := by simp at hg; omega
          exact ih g rest h1 h2

theorem findall_nil : findall [] = [] := rfl

theorem findall_match {s m rem : List Char} (h : matchAt s = some (m, rem)) :
    findall s = m :: findall rem := by
  obtain ⟨hs, hmne, -⟩ := matchAt_decomp h
  have hrem : rem.length + 1 ≤ s.length := by
    subst hs
    cases m with
    | nil => exact absurd rfl hmne
    | cons a m' => simp
  cases hsl : s.length with
  | zero => omega
  | succ n =>
    unfold findall
    rw [hsl]
    simp only [findallF, h]
    exact congrArg _ (findallF_congr n rem.length rem (by omega) le_rfl)

theorem findall_skip {c : Char} {rest : List Char} (h : matchAt (c :: rest) = none) :
    findall (c :: rest) = findall rest := by
  unfold findall
  simp only [List.length_cons, findallF, h]

theorem noBlank_cons : ∀ {a : Char} {l : List Char},
    noBlank (a :: l) = true → noBlank l = true := by
  intro a l h
  cases l with
  | nil => rfl
  | cons b l' =>
    simp only [noBlank, Bool.and_eq_true] at h
    exact h.2

theorem noBlank_suffix : ∀ {x y : List Char},
    noBlank (x ++ y) = true → noBlank y = true := by
  intro x
  induction x with
  | nil => intro y h; exact h
  | cons a x' ih =>
    intro y h
    exact ih (noBlank_cons h)

theorem noBlank_of_append_left : ∀ {x y : List Char},
    noBlank (x ++ y) = true → noBlank x = true := by
  intro x
  induction x with
  | nil => intro y _; rfl
  | cons a x' ih =>
    intro y h
    cases x' with
    | nil => rfl
    | cons b x'' =>
      simp only [List.cons_append, noBlank, Bool.and_eq_true] at h ⊢
      exact ⟨h.1, ih h.2⟩

theorem lazyContent_cons (x : Char) (xs : List Char) :
    lazyContent (x :: xs) =
      if boundaryB xs then some ([x], xs)
      else
        match lazyContent xs with
        | some (m, rem) => some (x :: m, rem)
        | none => none := rfl

/-- The lazy body consumes exactly a prescribed nonempty blank-line-free
run when the lookahead succeeds right after it.  The hypothesis
`noBlank (c ++ t.take 1)` rules out a `\n\n` pair both inside `c` and
straddling the end of `c` and the start of `t`. -/
theorem lazyContent_exact : ∀ (c t : List Char), c ≠ [] →
    noBlank (c ++ t.take 1) = true → boundaryB t = true →
    lazyContent (c ++ t) = some (c, t) := by
  intro c
  induction c with
  | nil => intro t h; exact absurd rfl h
  | cons a c' ih =>
    intro t _ hnb hb
    cases c' with
    | nil =>
      simp only [List.cons_append, List.nil_append]
      rw [lazyContent_cons, hb]
      simp
    | cons b c'' =>
      have hbnd : boundaryB (b :: (c'' ++ t)) = false := by
        cases c'' with
        | cons d c''' =>
          simp only [List.cons_append, noBlank, Bool.and_eq_true, Bool.not_eq_true',
            Bool.and_eq_false_iff] at hnb
          simp only [List.cons_append, boundaryB]
          rcases hnb.2.1 with h1 | h1 <;> simp [h1]
        | nil =>
          cases t with
          | nil => rfl
          | cons u t' =>
            simp only [List.take, List.cons_append, List.nil_append, noBlank,
              Bool.and_eq_true, Bool.not_eq_true', Bool.and_eq_false_iff] at hnb
            simp only [List.nil_append, boundaryB]
            rcases hnb.2.1 with h1 | h1 <;> simp [h1]
      have hrec : lazyContent (b :: (c'' ++ t)) = some (b :: c'', t) := by
        have := ih t (by simp) (by
          simp only [List.cons_append] at hnb
          exact noBlank_cons hnb) hb
        simpa using this
      simp only [List.cons_append]
      rw [lazyContent_cons, hbnd]
      simp only [Bool.false_eq_true, if_false]
      rw [hrec]

theorem takeWhile_digits : ∀ (ds rest : List Char), ds.all Char.isDigit = true →
    (ds ++ ']' :: rest).takeWhile Char.isDigit = ds ∧
    (ds ++ ']' :: rest).dropWhile Char.isDigit = ']' :: rest := by
  intro ds
  induction ds with
  | nil =>
    intro rest _
    constructor <;> simp [List.takeWhile, List.dropWhile]
  | cons d ds' ih =>
    intro rest h
    simp only [List.all_cons, Bool.and_eq_true] at h
    obtain ⟨hd, hds'⟩ := h
    obtain ⟨h1, h2⟩ := ih rest hds'
    constructor
    · simp [List.takeWhile, hd, h1]
    · simp [List.dropWhile, hd, h2]

/-- A well-formed entry followed by a lookahead boundary matches as
exactly itself. -/
theorem matchAt_entry (ds : List Char) (w : Char) (c t : List Char)
    (hent : isEntryB (ds, w, c) = true)
    (hnb : noBlank (c ++ t.take 1) = true) (hb : boundaryB t = true) :
    matchAt (entry ds w c ++ t) = some (entry ds w c, t) := by
  simp only [isEntryB, Bool.and_eq_true, Bool.not_eq_true', beq_eq_false_iff_ne,
    ne_eq] at hent
  obtain ⟨⟨⟨⟨hds, hdig⟩, hw⟩, hc⟩, -⟩ := hent
  have hsplit := takeWhile_digits ds (w :: (c ++ t)) hdig
  have hlc : lazyContent (c ++ t) = some (c, t) := lazyContent_exact c t hc hnb hb
  have hshape : entry ds w c ++ t = '[' :: (ds ++ ']' :: w :: (c ++ t)) := by
    simp [entry]
  rw [hshape]
  simp only [matchAt, if_pos rfl, hsplit.1, hsplit.2, hds, if_neg hds, hw, if_pos rfl,
    if_true, hlc]
  simp [entry]

/-! ### Behaviour of the scan on blank-line-free and well-separated texts -/

theorem findall_len_le_one_aux : ∀ (n : Nat) (s : List Char), s.length ≤ n →
    noBlank s = true → (findall s).length ≤ 1 := by
  intro n
  induction n with
  | zero =>
    intro s hn _
    have : s = [] := List.eq_nil_of_length_eq_zero (Nat.le_zero.mp hn)
    subst this
    simp [findall_nil]
  | succ n ih =>
    intro s hn hnb
    cases hm : matchAt s with
    | some pr =>
      obtain ⟨m, rem⟩ := pr
      obtain ⟨hs, hmne, hbd⟩ := matchAt_decomp hm
      have hrnb : noBlank rem = true := noBlank_suffix (hs ▸ hnb)
      have hrem : rem = [] := by
        cases rem with
        | nil => rfl
        | cons a rem' =>
          cases rem' with
          | nil => simp [boundaryB] at hbd
          | cons b rem'' =>
            simp only [boundaryB, Bool.and_eq_true, decide_eq_true_eq] at hbd
            simp only [noBlank, Bool.and_eq_true, Bool.not_eq_true',
              Bool.and_eq_false_iff, decide_eq_false_iff_not] at hrnb
            rcases hrnb.1 with h1 | h1
            · exact absurd hbd.1 h1
            · exact absurd hbd.2 h1
      subst hrem
      rw [findall_match hm, findall_nil]
      simp
    | none =>
      cases s with
      | nil => simp [findall_nil]
      | cons c rest =>
        rw [findall_skip hm]
        have h1 : rest.length ≤ n := by simp at hn; omega
        exact ih rest h1 (noBlank_cons hnb)

theorem findall_renderDoc : ∀ ts, ts ≠ [] → ts.all isEntryB = true →
    findall (renderDoc ts) = ts.map fun x => entry x.1 x.2.1 x.2.2 := by
  intro ts
  induction ts with
  | nil => intro h; exact absurd rfl h
  | cons x ts' ih =>
    intro _ hall
    simp only [List.all_cons, Bool.and_eq_true] at hall
    obtain ⟨hx, hts'⟩ := hall
    have hcnb : noBlank (x.2.2 ++ ['\n']) = true := by
      simp only [isEntryB, Bool.and_eq_true] at hx
      exact hx.2
    cases ts' with
    | nil =>
      have hm : matchAt (entry x.1 x.2.1 x.2.2 ++ []) = some (entry x.1 x.2.1 x.2.2, []) :=
        matchAt_entry x.1 x.2.1 x.2.2 [] hx
          (by simpa using noBlank_of_append_left hcnb) rfl
      rw [List.append_nil] at hm
      simp only [renderDoc, List.map_cons, List.map_nil]
      rw [findall_match hm, findall_nil]
    | cons y rest =>
      have hb2 : boundaryB ('\n' :: '\n' :: renderDoc (y :: rest)) = true := by
        simp [boundaryB]
      have hm : matchAt (entry x.1 x.2.1 x.2.2 ++ '\n' :: '\n' :: renderDoc (y :: rest)) =
          some (entry x.1 x.2.1 x.2.2, '\n' :: '\n' :: renderDoc (y :: rest)) :=
        matchAt_entry x.1 x.2.1 x.2.2 ('\n' :: '\n' :: renderDoc (y :: rest)) hx
          (by simpa using hcnb) hb2
      have hnl : ('\n' : Char) ≠ '[' := by decide
      simp only [renderDoc, List.map_cons]
      rw [findall_match hm, findall_skip (matchAt_cons_ne hnl),
        findall_skip (matchAt_cons_ne hnl), ih (by simp) hts']
      simp

/-! ## Claims about reference extraction -/

theorem extract_references_of_findall {s : String} {ms : List (List Char)}
    (h : findall s.data = ms) (hne : ms ≠ []) :
    extract_references s = ms.map String.mk := by
  have hmapne : ms.map String.mk ≠ [] := fun hc => hne (by simpa using hc)
  simp only [extract_references, h]
  simp [hmapne]

/-- Claim C3: for every input text with zero matches of the reference
pattern (the empty string included), `extract_references` returns
exactly the single-element list containing `"No references found."`,
and in particular never the empty list. -/
theorem claim_C3 (s : String) (h : findall s.data = []) :
    extract_references s = ["No references found."] ∧ extract_references s ≠ [] := by
  constructor
  · simp [extract_references, h]
  · simp [extract_references, h]

theorem claim_C3_witness :
    findall "".data = [] ∧
      extract_references "" = ["No references found."] ∧ extract_references "" ≠ [] :=
  ⟨rfl, claim_C3 "" rfl⟩

/-- Claim C4: matches span newlines.  First, any text containing no
blank line (`\n\n`) yields at most one extracted entry, so two
bracket-numbered entries separated only by a single newline are never
split into two result entries.  Second, an entry whose match ends
exactly at a blank-line separator is returned by itself — the scan
resumes after it — so two entries separated by a blank line are never
merged into one result entry. -/
theorem claim_C4 :
    (∀ s : List Char, noBlank s = true → (findall s).length ≤ 1) ∧
    (∀ e rest : List Char,
      matchAt (e ++ '\n' :: '\n' :: rest) = some (e, '\n' :: '\n' :: rest) →
      findall (e ++ '\n' :: '\n' :: rest) = e :: findall rest) := by
  constructor
  · intro s h
    exact findall_len_le_one_aux s.length s le_rfl h
  · intro e rest h
    have hnl : ('\n' : Char) ≠ '[' := by decide
    rw [findall_match h, findall_skip (matchAt_cons_ne hnl),
      findall_skip (matchAt_cons_ne hnl)]

theorem claim_C4_witness :
    (findall ("[1] foo".data ++ '\n' :: "[2] bar".data)).length ≤ 1 ∧
    findall ("[1] a".data ++ '\n' :: '\n' :: "[2] b".data) =
      "[1] a".data :: findall "[2] b".data :=
  ⟨claim_C4.1 ("[1] foo".data ++ '\n' :: "[2] bar".data) (by decide),
   claim_C4.2 "[1] a".data "[2] b".data (by decide)⟩

/-- Claim C5: a document consisting of N well-separated reference
entries (blank-line delimited, each a bracketed integer label, a
whitespace character and a body) extracts to exactly those N strings,
in order of appearance, each one starting with its own bracket label
(the result is literally the list of entries, which are pairwise
nonoverlapping segments of the text). -/
theorem claim_C5 (ts : List (List Char × Char × List Char)) (h1 : ts ≠ [])
    (h2 : ts.all isEntryB = true) :
    extract_references (String.mk (renderDoc ts)) =
      ts.map (fun x => String.mk (entry x.1 x.2.1 x.2.2)) ∧
    (extract_references (String.mk (renderDoc ts))).length = ts.length := by
  have hf : findall (String.mk (renderDoc ts)).data =
      ts.map fun x => entry x.1 x.2.1 x.2.2 := findall_renderDoc ts h1 h2
  have hne : (ts.map fun x => entry x.1 x.2.1 x.2.2) ≠ [] := by
    cases ts with
    | nil => exact absurd rfl h1
    | cons a l => simp
  have hmain := extract_references_of_findall hf hne
  rw [List.map_map] at hmain
  constructor
  · exact hmain
  · rw [hmain]; simp

theorem claim_C5_witness :
    extract_references (String.mk (renderDoc refDocW)) =
      ["[1] Smith 2020", "[2] Jones 2021"] ∧
    (extract_references (String.mk (renderDoc refDocW))).length = 2 := by
  have h := claim_C5 refDocW (by decide) (by decide)
  exact ⟨h.1.trans (by decide), h.2⟩

/-! ## Claims about answer generation and request handling -/

/-- Claim C1: for every model key, document text and question, if any
step of the tokenization or generation body raises, `generate_answer`
catches it and returns the string `"Error generating answer: "`
followed by the failure message; being a total function into `String`,
it never propagates an exception past its own boundary. -/
theorem claim_C1 (env : Env) (model_name pdf_text question : String)
    (max_length min_length : Nat) (e : String)
    (h : generateBody env model_name pdf_text question max_length min_length = .error e) :
    generate_answer env model_name pdf_text question max_length min_length =
      "Error generating answer: " ++ e := by
  simp [generate_answer, h]

theorem claim_C1_witness :
    generateBody envFail "bart" "doc" "q" 1500 700 = .error "boom" ∧
    generate_answer envFail "bart" "doc" "q" = "Error generating answer: " ++ "boom" :=
  ⟨rfl, claim_C1 envFail "bart" "doc" "q" 1500 700 "boom" rfl⟩

/-- Claim C2: whenever a request passes validation and a document text
is available, `process` completes and returns a page holding exactly
one answer per configured model — each produced by an unconditional
call of `generate_answer` for `bart`, `gpt2` and `gpt_neo` — together
with the reference list; since `generate_answer` is total, a failure
inside one model call degrades to an error string in its slot and
prevents neither the other calls nor the request from completing. -/
theorem claim_C2 (env : Env) (req : Req) (t : String)
    (h1 : validationFails req = false) (h2 : resolveText req = some t) :
    process env req = .ok (.page (req.question.getD "")
      (generate_answer env "bart" t (req.question.getD ""))
      (generate_answer env "gpt2" t (req.question.getD ""))
      (generate_answer env "gpt_neo" t (req.question.getD ""))
      (extract_references t)) := by
  simp [process, h1, h2]

theorem claim_C2_witness :
    process envFail ⟨some "q", some "body", none⟩ = .ok (.page "q"
      (generate_answer envFail "bart" "body" "q")
      (generate_answer envFail "gpt2" "body" "q")
      (generate_answer envFail "gpt_neo" "body" "q")
      (extract_references "body")) ∧
    generate_answer envFail "bart" "body" "q" = "Error generating answer: boom" :=
  ⟨claim_C2 envFail ⟨some "q", some "body", none⟩ "body" rfl rfl, rfl⟩

/-- Claim C6: a request without a question is answered with the 400
error payload, and so is a request with a question but neither a text
field nor an uploaded file; the result is the same for every registry
`env`, i.e. it is produced before any model is invoked. -/
theorem claim_C6 (env : Env) (req : Req) :
    (req.question = none →
      process env req =
        .ok (.json [("error", "Both question and PDF text are required")] 400)) ∧
    (∀ q, req.question = some q → req.pdf_text = none → req.file = none →
      process env req =
        .ok (.json [("error", "Both question and PDF text are required")] 400)) := by
  constructor
  · intro hq
    simp [process, validationFails, truthyS, hq]
  · intro q hq hp hf
    simp [process, validationFails, truthyS, fileTruthy, hq, hp, hf]

theorem claim_C6_witness :
    process envFail ⟨none, some "text", none⟩ =
      .ok (.json [("error", "Both question and PDF text are required")] 400) ∧
    process envFail ⟨some "q", none, none⟩ =
      .ok (.json [("error", "Both question and PDF text are required")] 400) :=
  ⟨(claim_C6 envFail ⟨none, some "text", none⟩).1 rfl,
   (claim_C6 envFail ⟨some "q", none, none⟩).2 "q" rfl rfl rfl⟩

/-- Claim C7: `generate_answer` builds the single prompt by
concatenating the fixed instruction template, the question and the
document text, and tokenizes it with truncation to the fixed context
length 1024: the token sequence handed to the model is the first 1024
raw tokens of the prompt, truncation drops trailing tokens only
(prefix plus dropped suffix reassemble the full sequence), and an
encoded prompt not exceeding 1024 tokens is passed unchanged. -/
theorem claim_C7 (env : Env) (name pdf_text question : String) (ml mn : Nat)
    (model : GenModel) (tk : Tokenizer) (ts : List Nat)
    (hm : models_get env name = .ok model)
    (ht : tokenizers_get env name = .ok tk)
    (hts : tk.toTokens (mkPrompt question pdf_text) = .ok ts) :
    mkPrompt question pdf_text =
      "Research Question: " ++ question ++ "\n\nContext: " ++ pdf_text ∧
    generateBody env name pdf_text question ml mn =
      Except.bind (model.generate (ts.take 1024) ⟨ml, mn, 5, (1.5 : Rat), true⟩)
        (fun outputs => Except.bind (getItem0 outputs) fun first =>
          tk.decode first true) ∧
    ts.take 1024 ++ ts.drop 1024 = ts ∧
    (ts.length ≤ 1024 → ts.take 1024 = ts) := by
  refine ⟨rfl, ?_, List.take_append_drop 1024 ts, fun h => List.take_of_length_le h⟩
  simp [generateBody, hm, ht, Tokenizer.encode, hts, Except.bind]

theorem claim_C7_witness :
    models_get envTok "bart" = .ok failModel ∧
    okTokenizer.toTokens (mkPrompt "q" "doc") = .ok tsW ∧
    (mkPrompt "q" "doc" =
      "Research Question: " ++ "q" ++ "\n\nContext: " ++ "doc" ∧
    generateBody envTok "bart" "doc" "q" 1500 700 =
      Except.bind (failModel.generate (tsW.take 1024) ⟨1500, 700, 5, (1.5 : Rat), true⟩)
        (fun outputs => Except.bind (getItem0 outputs) fun first =>
          okTokenizer.decode first true) ∧
    tsW.take 1024 ++ tsW.drop 1024 = tsW ∧
    (tsW.length ≤ 1024 → tsW.take 1024 = tsW)) :=
  ⟨rfl, rfl, claim_C7 envTok "bart" "doc" "q" 1500 700 failModel okTokenizer tsW rfl rfl rfl⟩

/-- Claim C8: the health endpoint returns the fixed
`{"status": "running"}` payload with status 200 for every registry
state — it does not consult the models at all. -/
theorem claim_C8 (env : Env) : health_check env = .json [("status", "running")] 200 :=
  rfl

/-- Claim C9: a request with a nonempty question, no text field and an
uploaded file whose extension is not allowed passes validation (no 400
is produced: the truthy file satisfies the `pdf_text or uploaded_file`
test), yet the file branch neither converts the file nor sets the
placeholder, so the pipeline proceeds with an absent document text —
in the Python code `extract_references(None)` then raises `TypeError`.
The extension check gates only the save-and-placeholder step, never
validation. -/
theorem claim_C9 (env : Env) (req : Req) (q fn : String)
    (hq : req.question = some q) (hqne : q ≠ "")
    (hp : req.pdf_text = none) (hf : req.file = some fn) (hfne : fn ≠ "")
    (hext : allowed_file fn = false) :
    validationFails req = false ∧ resolveText req = none ∧
    process env req = .error "TypeError: expected string or bytes-like object" := by
  have hv : validationFails req = false := by
    simp [validationFails, truthyS, fileTruthy, hq, hp, hf, hqne, hfne]
  have hr : resolveText req = none := by
    simp [resolveText, hf, hext, hp]
  exact ⟨hv, hr, by simp [process, hv, hr]⟩

theorem claim_C9_witness :
    allowed_file "paper.exe" = false ∧
    (validationFails ⟨some "q", none, some "paper.exe"⟩ = false ∧
    resolveText ⟨some "q", none, some "paper.exe"⟩ = none ∧
    process envFail ⟨some "q", none, some "paper.exe"⟩ =
      .error "TypeError: expected string or bytes-like object") :=
  ⟨by decide,
   claim_C9 envFail ⟨some "q", none, some "paper.exe"⟩ "q" "paper.exe"
     rfl (by decide) rfl rfl (by decide) (by decide)⟩

/-- Claim C10: for a model key outside the three configured ones, the
registry lookup raises `KeyError` inside the `try:` block, the same
handler that catches generation failures converts it, and
`generate_answer` returns the error-prefixed string (with the key's
`repr` as the message) instead of raising. -/
theorem claim_C10 (env : Env) (name pdf_text question : String) (ml mn : Nat)
    (h1 : name ≠ "bart") (h2 : name ≠ "gpt2") (h3 : name ≠ "gpt_neo") :
    generate_answer env name pdf_text question ml mn =
      "Error generating answer: " ++ keyErrMsg name := by
  simp [generate_answer, generateBody, models_get, h1, h2, h3, Except.bind]

theorem claim_C10_witness :
    generate_answer envFail "llama" "doc" "q" 1500 700 =
      "Error generating answer: " ++ keyErrMsg "llama" :=
  claim_C10 envFail "llama" "doc" "q" 1500 700 (by decide) (by decide) (by decide)
